import Mathlib

/-!
Shallow embedding of the BLE bridge firmware of this repository
(`src/firmware/ble_bridge.py` and `src/firmware/main.py`):
UUID normalization, advertisement TLV parsing, scan deduplication and
noise filtering, the raw-entry cap, the radio lifecycle of `scan`,
the `Connect` command handler, and the inbound command dispatch.

Python strings are modelled as `List Char`; byte strings as `List Nat`
(one entry per byte, each below 256 as delivered by the BLE stack).
Fallible code (Python exceptions) returns `Except` or `Option`.
-/

namespace BleScaleSync

/-! ### Python-style hex formatting helpers -/

/-- Python `"%0<w>x" % n`: lowercase hex of `n`, zero-padded to width `w`
(`Nat.toDigits 16` produces the lowercase hex digits of `n`, most
significant first, `"0"` for 0, exactly like Python `"%x"`). -/
def pyHexPad (w n : Nat) : List Char :=
  let ds := Nat.toDigits 16 n
  List.replicate (w - ds.length) '0' ++ ds

/-- Python `"%0<w>X" % n`: uppercase hex of `n`, zero-padded to width `w`. -/
def pyHexPadU (w n : Nat) : List Char :=
  let ds := (Nat.toDigits 16 n).map Char.toUpper
  List.replicate (w - ds.length) '0' ++ ds

/-- Python `bytes.hex()`: two lowercase hex digits per byte. -/
def bytesHex (bs : List Nat) : List Char :=
  (bs.map (pyHexPad 2)).flatten

/-- `sep.join(xs)` for a one-character separator. -/
def joinSep (sep : Char) : List (List Char) → List Char
  | [] => []
  | [x] => x
  | x :: xs => x ++ sep :: joinSep sep xs

/-- `":".join("%02X" % b for b in addr_bytes)` from `BleBridge.scan`. -/
def macString (addr : List Nat) : List Char :=
  joinSep ':' (addr.map (pyHexPadU 2))

/-- Strict UTF-8 decoding — Python `bytes.decode("utf-8")`.
`none` models the `UnicodeDecodeError` raised on any invalid sequence
(stray continuation bytes, overlong encodings, surrogates, values past
U+10FFFF, truncated sequences). -/
def utf8Decode : List Nat → Option (List Char)
  | [] => some []
  | b :: rest =>
    if b < 0x80 then
      (utf8Decode rest).map (fun cs => Char.ofNat b :: cs)
    else if b < 0xC2 then none
    else if b < 0xE0 then
      match rest with
      | c1 :: rest1 =>
        if 0x80 ≤ c1 ∧ c1 < 0xC0 then
          (utf8Decode rest1).map (fun cs =>
            Char.ofNat ((b - 0xC0) * 64 + (c1 - 0x80)) :: cs)
        else none
      | [] => none
    else if b < 0xF0 then
      match rest with
      | c1 :: c2 :: rest2 =>
        if (0x80 ≤ c1 ∧ c1 < 0xC0) ∧ (0x80 ≤ c2 ∧ c2 < 0xC0)
            ∧ (b = 0xE0 → 0xA0 ≤ c1) ∧ (b = 0xED → c1 < 0xA0) then
          (utf8Decode rest2).map (fun cs =>
            Char.ofNat ((b - 0xE0) * 4096 + (c1 - 0x80) * 64 + (c2 - 0x80)) :: cs)
        else none
      | _ => none
    else if b < 0xF5 then
      match rest with
      | c1 :: c2 :: c3 :: rest3 =>
        if (0x80 ≤ c1 ∧ c1 < 0xC0) ∧ (0x80 ≤ c2 ∧ c2 < 0xC0) ∧ (0x80 ≤ c3 ∧ c3 < 0xC0)
            ∧ (b = 0xF0 → 0x90 ≤ c1) ∧ (b = 0xF4 → c1 < 0x90) then
          (utf8Decode rest3).map (fun cs =>
            Char.ofNat ((b - 0xF0) * 262144 + (c1 - 0x80) * 4096
              + (c2 - 0x80) * 64 + (c3 - 0x80)) :: cs)
        else none
      | _ => none
    else none

/-! ### UUID normalization (`_norm_uuid`, ble_bridge.py lines 21-33) -/

/-- Bluetooth Base UUID suffix, `_BT_BASE_SUFFIX` in ble_bridge.py. -/
def btBaseSuffix : List Char := "00001000800000805f9b34fb".data

/-- `_norm_uuid(uuid)` from ble_bridge.py, acting on the textual form
`str(uuid)` of a MicroPython UUID (or any other string it is handed).
MicroPython prints a 16-bit UUID as `UUID(0x%04x)` and a 128-bit UUID as
`UUID('..-..')`; a bare textual UUID falls through to the last branch. -/
def normUuid (s : List Char) : List Char :=
  if ("UUID(0x".data).isPrefixOf s && (")".data).isSuffixOf s then
    "0000".data ++ ((s.drop 7).dropLast.map Char.toLower) ++ btBaseSuffix
  else if ("UUID('".data).isPrefixOf s && ("')".data).isSuffixOf s then
    ((((s.drop 6).dropLast.dropLast).filter (fun c => c ≠ '-')).map Char.toLower)
  else
    (s.map Char.toLower).filter (fun c => c ≠ '-')

/-! ### Advertisement TLV parsing (`BleBridge.scan` post-processing loop,
ble_bridge.py lines 76-100) -/

/-- The per-advertisement fields accumulated by the parse loop:
`name`, `services`, and the manufacturer id/data pair (`mfr_id` and
`mfr_data` are `None`/set together in the source, so they are one
`Option` here). -/
structure AdvFields where
  name : List Char
  services : List (List Char)
  mfr : Option (Nat × List Char)
  deriving Repr, DecidableEq

/-- `uuid = ad_payload[j] | (ad_payload[j + 1] << 8)` collected for
`j in range(0, len(ad_payload) - 1, 2)`: consecutive little-endian pairs,
a trailing odd byte ignored. -/
def svcPairs : List Nat → List Nat
  | b0 :: b1 :: rest => (b0 ||| (b1 <<< 8)) :: svcPairs rest
  | _ => []

/-- The `while i < len(raw)` TLV loop of `BleBridge.scan`, as recursion on
`raw.drop i` (the bytes not yet consumed). `.error ()` models the uncaught
`IndexError` from `ad_payload[0]` / `ad_payload[1]` in the Manufacturer
Specific branch when the structure is truncated. -/
def parseLoop : List Nat → AdvFields → Except Unit AdvFields
  | [], acc => .ok acc
  | len :: rest, acc =>
    if len = 0 then .ok acc                     -- if length == 0: break
    else
      match rest with
      | [] => .ok acc                           -- if i + 1 >= len(raw): break
      | adType :: rest2 =>
        let payload := rest2.take (len - 1)     -- raw[i+2 : i+1+length]
        let step : Except Unit AdvFields :=
          if adType = 0x09 ∨ adType = 0x08 then -- Local Name
            .ok (match utf8Decode payload with
                 | some s => { acc with name := s }
                 | none => acc)                 -- except: pass
          else if adType = 0x03 ∨ adType = 0x02 then -- 16-bit Service UUIDs
            .ok { acc with services := acc.services ++ (svcPairs payload).map (pyHexPad 4) }
          else if adType = 0xFF ∧ 3 ≤ len then  -- Manufacturer Specific
            match payload with
            | p0 :: p1 :: pd => .ok { acc with mfr := some (p0 ||| (p1 <<< 8), bytesHex pd) }
            | _ => .error ()                    -- IndexError on ad_payload[0]/[1]
          else .ok acc
        match step with
        | .ok acc1 => parseLoop (rest2.drop (len - 1)) acc1  -- i += length + 1
        | .error e => .error e
termination_by l => l.length
decreasing_by simp [List.length_drop]; omega

/-- Parse one raw advertisement payload starting from the empty field
state (`name = ""`, `services = []`, `mfr_id = mfr_data = None`). -/
def parseAds (raw : List Nat) : Except Unit AdvFields :=
  parseLoop raw { name := [], services := [], mfr := none }

/-! ### Scan deduplication, noise filter, raw-entry cap and radio
lifecycle (`BleBridge.scan`, ble_bridge.py lines 42-131) -/

/-- One raw IRQ scan entry: `(bytes(addr), addr_type, rssi, bytes(adv_data))`. -/
structure RawAdv where
  addr : List Nat
  addrType : Nat
  rssi : Int
  payload : List Nat
  deriving Repr, DecidableEq

/-- One value of the `seen` dict: the accumulated record for one address.
`mfr = none` models the `manufacturer_id` / `manufacturer_data` keys being
absent from the entry dict. -/
structure Entry where
  address : List Char
  name : List Char
  rssi : Int
  services : List (List Char)
  addrType : Nat
  mfr : Option (Nat × List Char)
  deriving Repr, DecidableEq

/-- Python truthiness of `entry.get("manufacturer_data")` (and of the
parse-level `mfr_data`): present and a non-empty string. -/
def mfrTruthy : Option (Nat × List Char) → Bool
  | some (_, d) => d ≠ []
  | none => false

/-- The `if mac in seen:` merge branch of `BleBridge.scan`
(ble_bridge.py lines 103-110): keep the stronger RSSI, backfill an empty
name, backfill missing manufacturer data. -/
def mergeEntry (e : Entry) (rssi : Int) (f : AdvFields) : Entry :=
  let e1 := if rssi > e.rssi then { e with rssi := rssi } else e
  let e2 := if f.name ≠ [] ∧ e1.name = [] then { e1 with name := f.name } else e1
  if mfrTruthy f.mfr = true ∧ mfrTruthy e2.mfr = false then { e2 with mfr := f.mfr } else e2

/-- The `else:` branch of the dedup step (ble_bridge.py lines 111-122):
a fresh entry; the manufacturer keys are set exactly when `mfr_id` is not
`None`, which is exactly `f.mfr = some _`. -/
def newEntry (mac : List Char) (addrType : Nat) (rssi : Int) (f : AdvFields) : Entry :=
  { address := mac, name := f.name, rssi := rssi, services := f.services,
    addrType := addrType, mfr := f.mfr }

/-- `seen[mac]` update: replace the (unique) entry with this address, or
append a new one. The `seen` dict keyed by MAC, in insertion order. -/
def upsert (mac : List Char) (addrType : Nat) (rssi : Int) (f : AdvFields) :
    List Entry → List Entry
  | [] => [newEntry mac addrType rssi f]
  | e :: rest =>
    if e.address = mac then mergeEntry e rssi f :: rest
    else e :: upsert mac addrType rssi f rest

/-- The post-processing `for` loop over `raw_results`: parse each payload
(an uncaught parse exception aborts the whole scan), then dedup by MAC. -/
def dedupScan (advs : List RawAdv) : Except Unit (List Entry) :=
  advs.foldlM
    (fun seen a => do
      let f ← parseAds a.payload
      pure (upsert (macString a.addr) a.addrType a.rssi f seen))
    []

/-- `[v for v in seen.values() if v["name"] or v.get("manufacturer_data")]`
(ble_bridge.py line 125). -/
def noiseFilter (seen : List Entry) : List Entry :=
  seen.filter (fun e => decide (e.name ≠ []) || mfrTruthy e.mfr)

/-- `_MAX_SCAN_ENTRIES` (ble_bridge.py line 18). -/
def MAX_SCAN_ENTRIES : Nat := 200

/-- The `_irq` collection of raw entries over the incoming advertisement
stream: `if len(raw_results) < _MAX_SCAN_ENTRIES: raw_results.append(...)`
(ble_bridge.py lines 53-57). -/
def collectRaw (incoming : List RawAdv) : List RawAdv :=
  incoming.foldl
    (fun acc a => if acc.length < MAX_SCAN_ENTRIES then acc ++ [a] else acc)
    []

/-- One whole `BleBridge.scan` cycle over an incoming advertisement
stream. First component: the returned results (`.error` = the uncaught
exception escaping `scan`); second component: whether the BLE radio is
still active when `scan` exits. The source calls `_ble.active(True)`
before collecting and `_ble.active(False)` only after the noise filter on
the normal path, so an exception escaping the post-processing loop leaves
the radio active. -/
def scanModel (incoming : List RawAdv) : Except Unit (List Entry) × Bool :=
  match dedupScan (collectRaw incoming) with
  | .ok seen => (.ok (noiseFilter seen), false)
  | .error e => (.error e, true)

/-! ### The `Connect` command handler (`handle_connect`, main.py
lines 155-200) -/

/-- The module-level flags of main.py that `handle_connect` touches. -/
structure BridgeFlags where
  busy : Bool
  scanPaused : Bool
  charSubscribed : Bool
  deriving Repr, DecidableEq

/-- One characteristic as returned by `bridge.connect`:
`{"uuid": ..., "properties": [...]}`. -/
structure CharInfo where
  uuid : List Char
  properties : List (List Char)
  deriving Repr, DecidableEq

/-- Observable actions of `handle_connect`: MQTT publishes (attempted)
and BLE / subscription side effects, in program order. -/
inductive Ev where
  | pubError (msg : List Char)
  | bleDisconnect
  | bleConnect (address : List Char) (addrType : Nat)
  | subscribeCharTopics
  | notifyStart (uuid : List Char)
  | pubConnected (chars : List CharInfo)
  deriving Repr, DecidableEq

/-- The environment one `handle_connect` run sees: the value of the
shared `_busy` flag at each of its polls (written concurrently by
`scan_loop`), and the outcome of each await inside the `try:` block
(`none`/`false` = that step raises). -/
structure ConnectEnv where
  busySeq : Nat → Bool
  parsed : Option (List Char × Nat)
  disconnectOk : Bool
  connectResult : Option (List CharInfo)
  subscribeOk : Bool
  notifyOk : Bool
  publishOk : Bool

/-- The busy-wait of `handle_connect`: `for _ in range(60): if not _busy:
break; await asyncio.sleep_ms(500)` followed by `if _busy:`. The loop
reads `_busy` at polls 0..59; if all are true, the final `if _busy:` is a
fresh read (poll 60) after the last sleep. If some poll read false, no
suspension point separates the break from the final check, so it sees the
same false value. -/
def busyWaitAborts (b : Nat → Bool) : Bool :=
  ((List.range 60).all b) && b 60

/-- `"Busy — another BLE operation is in progress"`. -/
def busyMsg : List Char := "Busy — another BLE operation is in progress".data

/-- The body of the `try:` block of `handle_connect` (main.py lines
170-195), threading the flags and recording events; the `Bool` result is
whether the block raised. -/
def connectSeq (env : ConnectEnv) (fl : BridgeFlags) : BridgeFlags × List Ev × Bool :=
  match env.parsed with
  | none => (fl, [], true)                       -- json.loads / data["address"] raises
  | some _ =>
    if env.disconnectOk = false then (fl, [.bleDisconnect], true)
    else
      match env.connectResult with
      | none => (fl, [.bleDisconnect, .bleConnect (env.parsed.getD ([], 0)).1
          (env.parsed.getD ([], 0)).2], true)    -- bridge.connect raises
      | some chars =>
        let tr0 := [.bleDisconnect, .bleConnect (env.parsed.getD ([], 0)).1
          (env.parsed.getD ([], 0)).2]
        -- if not _char_subscribed: subscribe write/# and read/#
        if fl.charSubscribed = false ∧ env.subscribeOk = false then (fl, tr0, true)
        else
          let fl1 := if fl.charSubscribed = false
            then { fl with charSubscribed := true } else fl
          let tr1 := if fl.charSubscribed = false
            then tr0 ++ [Ev.subscribeCharTopics] else tr0
          if env.notifyOk = false then (fl1, tr1, true)
          else
            let tr2 := tr1 ++ (chars.filter
              (fun c => c.properties.contains ("notify".data))).map
              (fun c => Ev.notifyStart c.uuid)
            if env.publishOk = false then (fl1, tr2, true)
            else (fl1, tr2 ++ [Ev.pubConnected chars], false)

/-- `handle_connect` (main.py lines 155-200). Returns the final flags,
the event trace, and whether an exception propagates to the dispatch
loop (the `raise e` after `_scan_paused = False`). On the busy-abort
path the handler never touches `_busy`; its value at return is the
environment's current one (poll 60). -/
def handleConnect (env : ConnectEnv) (fl : BridgeFlags) : BridgeFlags × List Ev × Bool :=
  let fl1 := { fl with scanPaused := true }
  if busyWaitAborts env.busySeq then
    ({ fl1 with scanPaused := false, busy := env.busySeq 60 }, [.pubError busyMsg], false)
  else
    let fl2 := { fl1 with busy := true }
    match connectSeq env fl2 with
    | (fl3, tr, false) => ({ fl3 with busy := false }, tr, false)
    | (fl3, tr, true) => ({ fl3 with scanPaused := false, busy := false }, tr, true)

/-! ### Inbound command dispatch (`main`, main.py lines 231-247) -/

/-- The action the dispatch loop takes for one inbound `(topic, msg)`. -/
inductive Cmd where
  | connectCmd (payload : List Char)
  | disconnectCmd
  | writeCmd (uuid : List Char) (payload : List Char)
  | readCmd (uuid : List Char)
  | skip
  deriving Repr, DecidableEq

/-- `topic(suffix)` from main.py: `f"{BASE}/{suffix}"`. -/
def topicOf (base sfx : List Char) : List Char := base ++ '/' :: sfx

/-- The `if/elif` chain of the dispatch loop in `main()`: exact match on
`connect` and `disconnect`, prefix match on `write/` and `read/`, and for
`read/` the guard `if "/response" not in suffix:` that drops the bridge's
own response topics. Topics matching nothing are ignored. -/
def dispatch (base t msg : List Char) : Cmd :=
  if t = topicOf base ("connect".data) then .connectCmd msg
  else if t = topicOf base ("disconnect".data) then .disconnectCmd
  else if (topicOf base ("write/".data)) <+: t then
    .writeCmd (t.drop (topicOf base ("write/".data)).length) msg
  else if (topicOf base ("read/".data)) <+: t then
    let sfx := t.drop (topicOf base ("read/".data)).length
    if ("/response".data) <:+: sfx then .skip
    else .readCmd sfx
  else .skip

/-- What one dispatched command makes the bridge do, restricted to what
claim C10 is about: the characteristic reads performed and the messages
published by `handle_read` (`read/{uuid}/response`). -/
def readsAndPublishes (base t msg : List Char) : List (List Char) × List (List Char) :=
  match dispatch base t msg with
  | .readCmd u => ([u], [topicOf base ("read/".data ++ u ++ "/response".data)])
  | _ => ([], [])

/-! ### Spec-side predicates for the claims -/

/-- The 22 hex digit characters, either case. -/
def hexDigitsAny : List Char :=
  ['A', 'B', 'C', 'D', 'E', 'F', 'a', 'b', 'c', 'd', 'e', 'f',
   '0', '1', '2', '3', '4', '5', '6', '7', '8', '9']

/-- Lowercase hex character. -/
def isLowerHexChar (c : Char) : Bool := ("0123456789abcdef".data).contains c

/-- "a 32-character lowercase hex string". -/
def isHex32 (s : List Char) : Bool :=
  (decide (s.length = 32)) && s.all isLowerHexChar

/-! ### Helper lemmas -/

theorem hexAny_char_facts : ∀ c ∈ hexDigitsAny,
    isLowerHexChar (Char.toLower c) = true ∧ Char.toLower c ≠ '-'
      ∧ ('U' == c) = false := by
  intro c hc
  fin_cases hc <;> exact ⟨by decide, by decide, by decide⟩

theorem hexBlock (g : List Char) (hg : ∀ c ∈ g, c ∈ hexDigitsAny) :
    ((g.map Char.toLower).filter (fun c => c ≠ '-')) = g.map Char.toLower
      ∧ (g.map Char.toLower).all isLowerHexChar = true := by
  induction g with
  | nil => simp
  | cons c t ih =>
    have hc := hexAny_char_facts c (hg c (by simp))
    have ht := ih (fun x hx => hg x (by simp [hx]))
    have hpc : (decide (Char.toLower c ≠ '-')) = true := by simp [hc.2.1]
    refine ⟨?_, ?_⟩
    · simp only [List.map_cons, List.filter_cons, hpc, if_true]
      rw [ht.1]
    · simp [List.all_cons, hc.1, ht.2]

theorem hexBlocksJoin (gs : List (List Char))
    (hgs : ∀ g ∈ gs, ∀ c ∈ g, c ∈ hexDigitsAny) :
    (((joinSep '-' gs).map Char.toLower).filter (fun c => c ≠ '-'))
      = (gs.map (List.map Char.toLower)).flatten
    ∧ ((gs.map (List.map Char.toLower)).flatten).all isLowerHexChar = true := by
  induction gs with
  | nil => simp [joinSep]
  | cons g rest ih =>
    have hg := hexBlock g (hgs g (by simp))
    cases rest with
    | nil => simpa [joinSep] using hg
    | cons g2 r2 =>
      have ihr := ih (fun x hx => hgs x (by simp at hx ⊢; tauto))
      have hlow : Char.toLower '-' = '-' := by decide
      refine ⟨?_, ?_⟩
      · rw [show joinSep '-' (g :: g2 :: r2) = g ++ '-' :: joinSep '-' (g2 :: r2) from rfl]
        rw [List.map_append, List.filter_append, hg.1, List.map_cons, hlow,
          List.filter_cons]
        rw [if_neg (by decide), ihr.1]
        simp
      · have hr := ihr.2
        simp only [List.map_cons, List.flatten_cons, List.all_append] at hr ⊢
        rw [hg.2, Bool.true_and]
        exact hr

/-! ### C1 -/

/-- C1: UUID normalization matches the wire contract. The MicroPython
textual form of the 16-bit UUID 0x2A9D, `"UUID(0x2a9d)"` (MicroPython
prints 16-bit UUIDs as `UUID(0x%04x)`), normalizes to exactly
`"00002a9d00001000800000805f9b34fb"`; the 128-bit textual UUID
`"12345678-1234-1234-1234-123456789abc"` normalizes to exactly
`"12345678123412341234123456789abc"`; every valid 16-bit UUID input
(`UUID(0x` + 4 hex digits + `)`) and every valid 128-bit textual UUID
input (8-4-4-4-12 hex groups separated by dashes) normalizes to a
32-character lowercase hex string. -/
theorem c1_uuid_normalization_wire_contract :
    (normUuid ("UUID(0x2a9d)".data) = "00002a9d00001000800000805f9b34fb".data)
    ∧ (normUuid ("12345678-1234-1234-1234-123456789abc".data)
        = "12345678123412341234123456789abc".data)
    ∧ (∀ d : List Char, d.length = 4 → (∀ c ∈ d, c ∈ hexDigitsAny) →
        isHex32 (normUuid ("UUID(0x".data ++ d ++ [')'])) = true)
    ∧ (∀ g1 g2 g3 g4 g5 : List Char,
        g1.length = 8 → g2.length = 4 → g3.length = 4 → g4.length = 4 →
        g5.length = 12 →
        (∀ c, c ∈ g1 ++ g2 ++ g3 ++ g4 ++ g5 → c ∈ hexDigitsAny) →
        isHex32 (normUuid
          (g1 ++ ('-' :: g2) ++ ('-' :: g3) ++ ('-' :: g4) ++ ('-' :: g5))) = true) := by
  refine ⟨by rfl, by rfl, ?_, ?_⟩
  · intro d hd4 hdhex
    have hpre : (("UUID(0x".data).isPrefixOf ("UUID(0x".data ++ d ++ [')'])) = true := by
      rw [List.append_assoc]
      exact List.isPrefixOf_iff_prefix.mpr (List.prefix_append _ _)
    have hsuf : (((")").data).isSuffixOf ("UUID(0x".data ++ d ++ [')'])) = true :=
      List.isSuffixOf_iff_suffix.mpr ⟨"UUID(0x".data ++ d, by simp⟩
    have hdrop : (("UUID(0x".data ++ d ++ [')']).drop 7) = d ++ [')'] := by
      rw [List.append_assoc]
      exact List.drop_left' (by decide)
    have hblock := hexBlock d hdhex
    simp only [normUuid, hpre, hsuf, Bool.and_self, if_pos, hdrop,
      List.dropLast_concat, if_true]
    simp [isHex32, List.all_append, hd4, btBaseSuffix, hblock.2, isLowerHexChar]
  · intro g1 g2 g3 g4 g5 h1 h2 h3 h4 h5 hall
    obtain ⟨c, t, rfl⟩ : ∃ c t, g1 = c :: t := by
      cases g1 with
      | nil => simp at h1
      | cons c t => exact ⟨c, t, rfl⟩
    have hcU : ('U' == c) = false := (hexAny_char_facts c (hall c (by simp))).2.2
    have hjoin : (c :: t) ++ ('-' :: g2) ++ ('-' :: g3) ++ ('-' :: g4) ++ ('-' :: g5)
        = joinSep '-' [c :: t, g2, g3, g4, g5] := by
      simp [joinSep, List.append_assoc]
    rw [hjoin]
    have hu : joinSep '-' [c :: t, g2, g3, g4, g5]
        = c :: (t ++ '-' :: (g2 ++ '-' :: (g3 ++ '-' :: (g4 ++ '-' :: g5)))) := by
      simp [joinSep]
    have hb := hexBlocksJoin [c :: t, g2, g3, g4, g5] (by
      intro g hg x hx
      apply hall x
      simp at hg
      rcases hg with h | h | h | h | h <;> subst h <;> simp at hx ⊢ <;> tauto)
    have hgf1 : (("UUID(0x".data).isPrefixOf (joinSep '-' [c :: t, g2, g3, g4, g5]))
        = false := by
      rw [hu]; simp [List.isPrefixOf, hcU]
    have hgf2 : (("UUID('".data).isPrefixOf (joinSep '-' [c :: t, g2, g3, g4, g5]))
        = false := by
      rw [hu]; simp [List.isPrefixOf, hcU]
    simp only [normUuid]
    rw [if_neg (by simp [hgf1]), if_neg (by simp [hgf2]), hb.1]
    have ht7 : t.length = 7 := by simpa using h1
    have hlen32 : (([c :: t, g2, g3, g4, g5].map (List.map Char.toLower)).flatten).length
        = 32 := by
      simp [List.length_append, ht7, h2, h3, h4, h5]
    unfold isHex32
    rw [hlen32, hb.2]
    decide

/-- Witness for C1: the universally quantified parts of
`c1_uuid_normalization_wire_contract` instantiated at the 16-bit digit
block `"1A2b"` and at the 128-bit UUID
`"ABCDEF12-3456-789a-BCDE-F0123456789a"`. -/
theorem c1_uuid_normalization_wire_contract_witness :
    isHex32 (normUuid ("UUID(0x".data ++ "1A2b".data ++ [')'])) = true
    ∧ isHex32 (normUuid ("ABCDEF12".data ++ ('-' :: "3456".data) ++ ('-' :: "789a".data)
        ++ ('-' :: "BCDE".data) ++ ('-' :: "F0123456789a".data))) = true :=
  ⟨c1_uuid_normalization_wire_contract.2.2.1 ("1A2b".data) (by decide) (by decide),
   c1_uuid_normalization_wire_contract.2.2.2 ("ABCDEF12".data) ("3456".data)
     ("789a".data) ("BCDE".data) ("F0123456789a".data) (by decide) (by decide)
     (by decide) (by decide) (by decide) (by decide)⟩

/-! ### C2 -/

/-- C2: the claim states the TLV loop returns without raising for every
payload, truncating on a declared length that exceeds the remaining
bytes. The code violates this: on the payload `[0x03, 0xFF]` — a trailing
Manufacturer Specific structure declaring length 3 with zero bytes after
the type byte — the guard `length >= 3` passes, the slice
`raw[i+2 : i+1+length]` is empty, and `ad_payload[0]` raises an uncaught
`IndexError`. This theorem evaluates the embedded loop at that failing
input. -/
theorem c2_parse_loop_raises_on_truncated_mfr :
    parseAds [0x03, 0xFF] = .error () := by
  simp [parseAds, parseLoop]

/-! ### C3 -/

/-- C3 counterexample: an 0xFF structure with exactly TWO payload bytes
after the type byte (declared length 3) — fewer than the three the claim
requires — still gets a manufacturer id recorded (with empty data),
because the source guard is `length >= 3`, counting the type byte. -/
theorem c3_counterexample_two_byte_mfr_recorded :
    parseAds [0x03, 0xFF, 0x34, 0x12]
      = .ok { name := [], services := [], mfr := some (0x1234, []) } := by
  simp [parseAds, parseLoop, bytesHex]

/-- C3 (amended): for a well-formed Manufacturer Specific structure
(declared length = 1 type byte + payload), the parser records the
manufacturer id and data iff the structure carries at least TWO payload
bytes after the type byte (declared length ≥ 3): the first two bytes
form the little-endian id and the remainder — possibly empty — is the
hex-encoded data; with fewer than two bytes after the type byte nothing
is recorded. -/
theorem c3_mfr_recording_threshold (p : List Nat) :
    parseAds ((p.length + 1) :: 0xFF :: p)
      = .ok { name := [], services := [],
              mfr := match p with
                | p0 :: p1 :: pd => some (p0 ||| (p1 <<< 8), bytesHex pd)
                | _ => none } := by
  match p with
  | [] => simp [parseAds, parseLoop]
  | [x] => simp [parseAds, parseLoop]
  | p0 :: p1 :: pd =>
    have htake : (p0 :: p1 :: pd).take ((p0 :: p1 :: pd).length + 1 - 1)
        = p0 :: p1 :: pd := by simp
    have hdrop : (p0 :: p1 :: pd).drop ((p0 :: p1 :: pd).length + 1 - 1) = [] := by simp
    have hle : 3 ≤ (p0 :: p1 :: pd).length + 1 := by simp
    simp [parseAds, parseLoop, htake, hdrop, hle]

/-! ### C4 -/

/-- C4: the dedup merge keeps the higher RSSI, adopts the later name only
when the existing one is empty and the new one non-empty, adopts the later
manufacturer id/data only when the existing record has no (non-empty)
manufacturer data and the new advertisement carries some, and leaves
address, services and address type unchanged; and the concrete two
advertisements of the claim merge to one record with `rssi = -60`,
`name = "Scale1"`, `manufacturer_id = 0x01`, `manufacturer_data = "beef"`. -/
theorem c4_dedup_merge_rule :
    (∀ (e : Entry) (r : Int) (f : AdvFields),
      (mergeEntry e r f).rssi = max e.rssi r
      ∧ (mergeEntry e r f).name = (if e.name = [] ∧ f.name ≠ [] then f.name else e.name)
      ∧ (mergeEntry e r f).mfr
          = (if mfrTruthy e.mfr = false ∧ mfrTruthy f.mfr = true then f.mfr else e.mfr)
      ∧ (mergeEntry e r f).address = e.address
      ∧ (mergeEntry e r f).services = e.services
      ∧ (mergeEntry e r f).addrType = e.addrType)
    ∧ scanModel [⟨[0xAA], 0, -80, []⟩,
        ⟨[0xAA], 0, -60, [7, 0x09, 0x53, 0x63, 0x61, 0x6C, 0x65, 0x31,
          5, 0xFF, 0x01, 0x00, 0xBE, 0xEF]⟩]
      = (.ok [⟨"AA".data, "Scale1".data, -60, [], 0, some (0x01, "beef".data)⟩],
         false) := by
  constructor
  · intro e r f
    simp only [mergeEntry]
    refine ⟨?_, ?_, ?_, ?_, ?_, ?_⟩ <;> split_ifs <;> simp_all <;> omega
  · have h1 : parseAds [] = .ok ⟨[], [], none⟩ := by simp [parseAds, parseLoop]
    have h2 : parseAds [7, 0x09, 0x53, 0x63, 0x61, 0x6C, 0x65, 0x31,
        5, 0xFF, 0x01, 0x00, 0xBE, 0xEF]
        = .ok ⟨"Scale1".data, [], some (0x01, "beef".data)⟩ := by
      have hu : utf8Decode [83, 99, 97, 108, 101, 49] = some ("Scale1".data) := rfl
      have hb : bytesHex [0xBE, 0xEF] = "beef".data := rfl
      simp [parseAds, parseLoop, hu, hb]
    have hm : macString [0xAA] = "AA".data := rfl
    simp [scanModel, dedupScan, collectRaw, MAX_SCAN_ENTRIES, h1, h2, hm,
      upsert, mergeEntry, newEntry, noiseFilter, mfrTruthy, List.foldlM, bind,
      Except.bind, pure, Except.pure]

/-! ### C5 -/

/-- C5: the returned scan results are exactly the deduplicated records
with a non-empty name or (non-empty) manufacturer data; in particular a
record with empty name and no manufacturer data is excluded even when it
carries service UUIDs, as the concrete single-advertisement cycle shows. -/
theorem c5_noise_filter_excludes_nameless :
    (∀ advs seen, dedupScan (collectRaw advs) = .ok seen →
      scanModel advs = (.ok (noiseFilter seen), false)
      ∧ (∀ e, e ∈ noiseFilter seen ↔ e ∈ seen ∧ (e.name ≠ [] ∨ mfrTruthy e.mfr = true)))
    ∧ scanModel [⟨[0xAA], 0, -50, [3, 0x03, 0x0D, 0x18]⟩] = (.ok [], false) := by
  constructor
  · intro advs seen hded
    refine ⟨by simp [scanModel, hded], ?_⟩
    intro e
    simp [noiseFilter, List.mem_filter]
  · have h1 : parseAds [3, 0x03, 0x0D, 0x18] = .ok ⟨[], ["180d".data], none⟩ := by
      simp [parseAds, parseLoop, svcPairs]
      rfl
    have hm : macString [0xAA] = "AA".data := rfl
    simp [scanModel, dedupScan, collectRaw, MAX_SCAN_ENTRIES, h1, hm,
      upsert, newEntry, noiseFilter, mfrTruthy, List.foldlM, bind, Except.bind,
      pure, Except.pure]

/-- Witness for C5: the quantified part applied to the concrete noisy
advertisement (service UUID `0x180D`, empty name, no manufacturer data). -/
theorem c5_noise_filter_excludes_nameless_witness :
    scanModel [⟨[0xAA], 0, -50, [3, 0x03, 0x0D, 0x18]⟩]
      = (.ok (noiseFilter [⟨"AA".data, [], -50, ["180d".data], 0, none⟩]), false) :=
  (c5_noise_filter_excludes_nameless.1 [⟨[0xAA], 0, -50, [3, 0x03, 0x0D, 0x18]⟩]
    [⟨"AA".data, [], -50, ["180d".data], 0, none⟩] (by
      have h1 : parseAds [3, 0x03, 0x0D, 0x18] = .ok ⟨[], ["180d".data], none⟩ := by
        simp [parseAds, parseLoop, svcPairs]
        rfl
      have hm : macString [0xAA] = "AA".data := rfl
      simp [dedupScan, collectRaw, MAX_SCAN_ENTRIES, h1, hm, upsert, newEntry,
        List.foldlM, bind, Except.bind, pure, Except.pure])).1

/-! ### C6 -/

theorem foldl_cap_append (l : List RawAdv) :
    ∀ acc : List RawAdv, acc.length ≤ MAX_SCAN_ENTRIES →
      l.foldl (fun a x => if a.length < MAX_SCAN_ENTRIES then a ++ [x] else a) acc
        = acc ++ l.take (MAX_SCAN_ENTRIES - acc.length) := by
  induction l with
  | nil => intro acc _; simp
  | cons x t ih =>
    intro acc hacc
    rcases Nat.lt_or_ge acc.length MAX_SCAN_ENTRIES with hlt | hge
    · rw [List.foldl_cons, if_pos hlt, ih _ (by simp; omega)]
      have hM : MAX_SCAN_ENTRIES - acc.length
          = (MAX_SCAN_ENTRIES - (acc ++ [x]).length) + 1 := by
        simp
        omega
      rw [hM]
      simp [List.take_succ_cons, List.append_assoc]
    · have h0 : MAX_SCAN_ENTRIES - acc.length = 0 := by omega
      rw [List.foldl_cons, if_neg (by omega), ih _ hacc]
      simp [h0]

/-- C6: the raw entry collection never exceeds `_MAX_SCAN_ENTRIES = 200`
entries; it is exactly the first 200 incoming advertisements (later ones
are dropped); and the whole scan cycle — parse, dedup, filter — depends
only on those first 200 entries. -/
theorem c6_raw_buffer_cap_invariant (incoming : List RawAdv) :
    (collectRaw incoming).length ≤ MAX_SCAN_ENTRIES
    ∧ collectRaw incoming = incoming.take MAX_SCAN_ENTRIES
    ∧ scanModel incoming = scanModel (incoming.take MAX_SCAN_ENTRIES) := by
  have hc : collectRaw incoming = incoming.take MAX_SCAN_ENTRIES := by
    have h := foldl_cap_append incoming [] (by simp)
    simpa [collectRaw] using h
  have hc2 : collectRaw (incoming.take MAX_SCAN_ENTRIES)
      = incoming.take MAX_SCAN_ENTRIES := by
    have h := foldl_cap_append (incoming.take MAX_SCAN_ENTRIES) [] (by simp)
    simpa [collectRaw, List.take_take] using h
  refine ⟨?_, hc, ?_⟩
  · rw [hc]
    exact List.length_take_le _ _
  · unfold scanModel
    rw [hc, hc2]

/-! ### C7 -/

/-- C7: the claim states the BLE radio is deactivated on every exit path
of `scan`. The code violates this: `_ble.active(False)` runs only on the
normal path after post-processing, so the uncaught `IndexError` of the
truncated Manufacturer Specific structure (cf. C2) escapes `scan` with
the radio still active. This theorem evaluates the cycle at that failing
input: the scan raises, and the radio flag at exit is still `true`. -/
theorem c7_radio_left_active_on_failure :
    scanModel [⟨[0xAA], 0, -50, [0x03, 0xFF]⟩] = (.error (), true) := by
  have hp : parseAds [0x03, 0xFF] = .error () := by simp [parseAds, parseLoop]
  simp [scanModel, dedupScan, collectRaw, MAX_SCAN_ENTRIES, hp, List.foldlM, bind,
    Except.bind, pure, Except.pure]

/-! ### C8 and C9 -/

/-- An environment in which the shared `_busy` flag (written by the
concurrent `scan_loop`) reads true at every poll of the handler. -/
def envBusyForever : ConnectEnv :=
  { busySeq := fun _ => true, parsed := none, disconnectOk := true,
    connectResult := none, subscribeOk := true, notifyOk := true, publishOk := true }

/-- An environment in which `_busy` reads false immediately and the
payload parse (`json.loads(payload)["address"]`) raises. -/
def envParseFailure : ConnectEnv :=
  { busySeq := fun _ => false, parsed := none, disconnectOk := true,
    connectResult := none, subscribeOk := true, notifyOk := true, publishOk := true }

/-- C8 counterexample: when the busy ceiling expires, `handle_connect`
does NOT leave `scan_paused` set — main.py line 165 executes
`_scan_paused = False` before publishing the Busy error, so the handler
returns with `scan_paused = false`, contrary to the claim's
"restores nothing: scan_paused is left set". -/
theorem c8_counterexample_busy_abort_unpauses :
    (handleConnect envBusyForever ⟨true, false, false⟩).1.scanPaused ≠ true := by
  decide

/-- C8 (amended): if `busy` is still true after the full 30 s ceiling
(60 polls of 500 ms), the handler publishes exactly one Busy error event,
performs no connection, and sets `scan_paused` back to false before
returning (it does not leave it set); `busy` is left as the in-flight
scan's (still true). -/
theorem c8_busy_ceiling_aborts_with_one_error (env : ConnectEnv) (fl : BridgeFlags)
    (h : busyWaitAborts env.busySeq = true) :
    handleConnect env fl
      = ({ busy := true, scanPaused := false, charSubscribed := fl.charSubscribed },
         [Ev.pubError busyMsg], false)
    ∧ (∀ a ty, Ev.bleConnect a ty ∉ (handleConnect env fl).2.1) := by
  have h60 : env.busySeq 60 = true := by
    have hx := h
    simp [busyWaitAborts] at hx
    exact hx.2
  have hmain : handleConnect env fl
      = ({ busy := true, scanPaused := false, charSubscribed := fl.charSubscribed },
         [Ev.pubError busyMsg], false) := by
    simp [handleConnect, h, h60]
  refine ⟨hmain, ?_⟩
  intro a ty
  rw [hmain]
  simp

/-- Witness for C8 at the always-busy environment. -/
theorem c8_busy_ceiling_aborts_with_one_error_witness :
    busyWaitAborts envBusyForever.busySeq = true
    ∧ handleConnect envBusyForever ⟨false, false, false⟩
        = ({ busy := true, scanPaused := false, charSubscribed := false },
           [Ev.pubError busyMsg], false) :=
  ⟨by decide, (c8_busy_ceiling_aborts_with_one_error envBusyForever ⟨false, false, false⟩
      (by decide)).1⟩

/-- C9 counterexample: on the busy-ceiling abort path the handler returns
with `busy` still true (the flag belongs to the in-flight scan and the
handler never touched it), so "busy is cleared before the handler returns
on every path" fails on that path. -/
theorem c9_counterexample_busy_left_set_on_abort :
    (handleConnect envBusyForever ⟨true, false, false⟩).1.busy = true := by
  decide

/-- C9 (amended): on every run of `handle_connect` that passes the
busy-wait (the claim's premise "after the busy-wait succeeded"), `busy`
is cleared before the handler returns — success or failure — and every
failure of the connect sequence sets `scan_paused` to false before the
exception propagates. On the busy-abort path (excluded here) `busy` is
left to the in-flight scan. -/
theorem c9_connect_failure_restores_scan_resume (env : ConnectEnv) (fl : BridgeFlags)
    (h : busyWaitAborts env.busySeq = false) :
    (handleConnect env fl).1.busy = false
    ∧ ((handleConnect env fl).2.2 = true → (handleConnect env fl).1.scanPaused = false) := by
  unfold handleConnect
  simp only [h, Bool.false_eq_true, if_false]
  rcases hseq : connectSeq env { fl with scanPaused := true, busy := true }
    with ⟨fl3, tr, raised⟩
  cases raised <;> simp

/-- Witness for C9: the handler run in which the busy-wait passes at once
and the payload parse fails. -/
theorem c9_connect_failure_restores_scan_resume_witness :
    busyWaitAborts envParseFailure.busySeq = false
    ∧ (handleConnect envParseFailure ⟨false, false, false⟩).1.busy = false
    ∧ ((handleConnect envParseFailure ⟨false, false, false⟩).2.2 = true →
        (handleConnect envParseFailure ⟨false, false, false⟩).1.scanPaused = false) :=
  ⟨by decide,
   (c9_connect_failure_restores_scan_resume envParseFailure ⟨false, false, false⟩
     (by decide)).1,
   (c9_connect_failure_restores_scan_resume envParseFailure ⟨false, false, false⟩
     (by decide)).2⟩

/-! ### C10 -/

theorem topicOf_inj (base x y : List Char) : topicOf base x = topicOf base y ↔ x = y := by
  unfold topicOf
  constructor
  · intro h
    have h2 := (List.append_right_inj base).mp h
    injection h2
  · intro h
    rw [h]

/-- C10: an inbound topic of the form `{base}/read/{sfx}` whose suffix
contains `"/response"` dispatches to no action: no characteristic read is
performed and nothing is published; in particular the bridge's own
`read/{uuid}/response` output, echoed back in, never triggers a read. -/
theorem c10_read_response_echo_guard :
    (∀ base sfx msg : List Char, ("/response".data) <:+: sfx →
      readsAndPublishes base (topicOf base ("read/".data ++ sfx)) msg = ([], []))
    ∧ (∀ base uuid msg : List Char,
        readsAndPublishes base
          (topicOf base ("read/".data ++ (uuid ++ "/response".data))) msg = ([], [])) := by
  have hd : ∀ base sfx msg : List Char, ("/response".data) <:+: sfx →
      dispatch base (topicOf base ("read/".data ++ sfx)) msg = .skip := by
    intro base sfx msg h
    have hne1 : ¬ (topicOf base ("read/".data ++ sfx) = topicOf base ("connect".data)) := by
      rw [topicOf_inj]
      intro hx
      simp at hx
    have hne2 : ¬ (topicOf base ("read/".data ++ sfx)
        = topicOf base ("disconnect".data)) := by
      rw [topicOf_inj]
      intro hx
      simp at hx
    have hw : ¬ ((topicOf base ("write/".data)) <+: (topicOf base ("read/".data ++ sfx))) := by
      unfold topicOf
      intro hcon
      rw [show base ++ '/' :: ("write/".data) = (base ++ ['/']) ++ "write/".data from
            by simp,
          show base ++ '/' :: ("read/".data ++ sfx)
              = (base ++ ['/']) ++ ("read/".data ++ sfx) from by simp,
          List.prefix_append_right_inj] at hcon
      rcases hcon with ⟨t2, ht2⟩
      simp at ht2
    have hr : (topicOf base ("read/".data)) <+: (topicOf base ("read/".data ++ sfx)) := by
      refine ⟨sfx, ?_⟩
      simp [topicOf]
    have hsplit : topicOf base ("read/".data ++ sfx)
        = (topicOf base ("read/".data)) ++ sfx := by
      simp [topicOf]
    unfold dispatch
    rw [if_neg hne1, if_neg hne2, if_neg hw, if_pos hr]
    simp only []
    rw [hsplit, List.drop_left, if_pos h]
  constructor
  · intro base sfx msg h
    unfold readsAndPublishes
    rw [hd base sfx msg h]
  · intro base uuid msg
    have h : ("/response".data) <:+: (uuid ++ "/response".data) := ⟨uuid, [], by simp⟩
    unfold readsAndPublishes
    rw [hd base (uuid ++ "/response".data) msg h]

/-- Witness for C10: the echoed response topic `{base}/read/abcd/response`
with `base = "h/d1"` triggers no read and no publish. -/
theorem c10_read_response_echo_guard_witness :
    ("/response".data) <:+: ("abcd/response".data)
    ∧ readsAndPublishes ("h/d1".data)
        (topicOf ("h/d1".data) ("read/".data ++ "abcd/response".data)) [] = ([], []) :=
  ⟨by decide,
   c10_read_response_echo_guard.1 ("h/d1".data) ("abcd/response".data) [] (by decide)⟩

end BleScaleSync
